import Mathlib

/-!
Shallow embedding of the MCP agent (src/index.js): an `MCPClient` wrapping one
tool-provider connection, an `MCPAgent` holding a lazily built tool registry and
the `processQuery` turn loop, and the transport-selection wiring `getMCPClients`.
External effects are made explicit: console input is a stream of lines, the
provider backend is an oracle function, produced side effects (provider
invocations, tool dispatches) are returned as traces, and a thrown exception is
an explicit outcome constructor.
-/

/-- A JSON-compatible value, the payload type of tool arguments, tool
responses, and schema fields. -/
inductive JsonValue where
  | null
  | bool (b : Bool)
  | num (n : Int)
  | str (s : String)
  | arr (elems : List JsonValue)
  | obj (fields : List (String × JsonValue))
deriving Repr

/-- One part of a conversation turn: plain text, a function-call request, or a
function-call response (mirrors the shape of parts in the Gemini content API as
used by the source). -/
inductive MsgPart where
  | text (s : String)
  | functionCall (name : String) (args : JsonValue)
  | functionResponse (name : String) (response : JsonValue)
deriving Repr

/-- The JS test `'functionCall' in part` from line 107 / line 114 of the
source. -/
def MsgPart.hasFunctionCall : MsgPart → Bool
  | .functionCall _ _ => true
  | _ => false

/-- One conversation turn: a role tag and an ordered list of parts. -/
structure Turn where
  role : String
  parts : List MsgPart
deriving Repr

/-- Outcome of `MCPClient.callTool`: the `{ success, response }` object the
source returns (`response: null` is `none`). -/
structure CallOutcome where
  success : Bool
  response : Option JsonValue
deriving Repr

/-- A provider backend: what `this.mcp.callTool({name, arguments})` returns for
a given tool name and arguments. -/
abbrev ProviderBackend := String → JsonValue → JsonValue

/-- `MCPClient.callTool` (src/index.js lines 45-55). `inputLine` is the line
read by `rl.question`; the second component is the trace of calls actually made
to the underlying `this.mcp.callTool`, so "the provider is never invoked" is
"the trace is empty". -/
def MCPClient.callTool (mcp : ProviderBackend) (inputLine : String)
    (toolName : String) (args : JsonValue) :
    CallOutcome × List (String × JsonValue) :=
  if inputLine ≠ "yes" then
    ({ success := false, response := none }, [])
  else
    ({ success := true, response := some (mcp toolName args) }, [(toolName, args)])

/-- A raw tool as returned by a provider catalog query (`listTools`):
`{name, description, inputSchema}`. The schema is a JS object, modelled as an
ordered association list of fields. -/
structure RawTool where
  name : String
  description : String
  inputSchema : List (String × JsonValue)
deriving Repr

/-- The mutable state of one `MCPClient` (src/index.js lines 17-26):
`tools` is the `this.tools` cache (`null` initially), `initialised` the
connection flag, and `providerTools` the catalog the provider would answer
with on `this.mcp.listTools()`. -/
structure MCPClientState where
  name : String
  tools : Option (List RawTool)
  initialised : Bool
  providerTools : List RawTool
deriving Repr

/-- `MCPClient.getTool` (src/index.js lines 34-43): connect if needed, fetch
and cache the tool list on first call. The third component counts `listTools`
queries issued to the provider by this call (0 or 1). -/
def MCPClient.getTool (c : MCPClientState) :
    List RawTool × MCPClientState × Nat :=
  match c.tools with
  | some ts => (ts, c, 0)
  | none =>
      (c.providerTools,
       { c with tools := some c.providerTools, initialised := true }, 1)

/-- A cached tool definition, the `definition` object built at src/index.js
lines 81-84: `{name, description, parameters}`. -/
structure ToolDefinition where
  name : String
  description : String
  parameters : List (String × JsonValue)
deriving Repr

/-- One value of the `this._cachedTools` map: `{definition, client}`. The
owning client is recorded by its index in `this.mcpClients`. -/
structure RegistryEntry where
  definition : ToolDefinition
  client : Nat
deriving Repr

/-- One element of the list returned by `loadTools` (src/index.js line 90):
`{ functionDeclarations: [tool.definition] }`. -/
structure FunctionDeclGroup where
  functionDeclarations : List ToolDefinition
deriving Repr

/-- JS object property write `m[k] = v`: overwrites in place if the key is
present (keeping its position in property order), otherwise appends. -/
def objSet (m : List (String × RegistryEntry)) (k : String) (v : RegistryEntry) :
    List (String × RegistryEntry) :=
  if m.any (fun p => p.1 = k) then
    m.map (fun p => if p.1 = k then (k, v) else p)
  else
    m ++ [(k, v)]

/-- JS object property read `m[k]`: `none` is `undefined`. -/
def objGet (m : List (String × RegistryEntry)) (k : String) : Option RegistryEntry :=
  (m.find? (fun p => p.1 = k)).map (fun p => p.2)

/-- The `parameters` object built at src/index.js lines 76-79: every key of
`tool.inputSchema` except `additionalProperties` and `$schema`, each with its
value copied unchanged, in key order. -/
def stripSchemaKeys (inputSchema : List (String × JsonValue)) :
    List (String × JsonValue) :=
  inputSchema.filter
    (fun p => decide (p.1 ∉ (["additionalProperties", "$schema"] : List String)))

/-- The registry entry built for one tool at src/index.js lines 76-86. -/
def makeEntry (clientIdx : Nat) (tool : RawTool) : RegistryEntry :=
  { definition :=
      { name := tool.name
        description := tool.description
        parameters := stripSchemaKeys tool.inputSchema }
    client := clientIdx }

/-- The state of the `MCPAgent` (src/index.js lines 63-68): the configured
clients and the `this._cachedTools` registry cache (`null` initially). -/
structure AgentState where
  mcpClients : List MCPClientState
  cachedTools : Option (List (String × RegistryEntry))
deriving Repr

/-- The provider loop of `loadTools` (src/index.js lines 73-88): for each
client in order, fetch its tools and insert an entry for each into the
registry, later writes overwriting earlier ones. Returns the built registry,
the updated client states, and the total number of `listTools` provider
queries issued. -/
def loadToolsLoop : List MCPClientState → List (String × RegistryEntry) → Nat →
    List (String × RegistryEntry) × List MCPClientState × Nat
  | [], reg, _ => (reg, [], 0)
  | c :: rest, reg, idx =>
      let r1 := MCPClient.getTool c
      let reg2 := r1.1.foldl (fun r t => objSet r t.name (makeEntry idx t)) reg
      let r2 := loadToolsLoop rest reg2 (idx + 1)
      (r2.1, r1.2.1 :: r2.2.1, r1.2.2 + r2.2.2)

/-- `MCPAgent.loadTools` (src/index.js lines 70-91): build the registry on
first call, reuse the cache afterwards; in both cases return one function
declaration group per registry value, in property order. The third component
is the total number of `listTools` provider queries this call issued. -/
def MCPAgent.loadTools (a : AgentState) :
    List FunctionDeclGroup × AgentState × Nat :=
  match a.cachedTools with
  | some reg =>
      (reg.map (fun p => { functionDeclarations := [p.2.definition] }), a, 0)
  | none =>
      let r := loadToolsLoop a.mcpClients [] 0
      (r.1.map (fun p => { functionDeclarations := [p.2.definition] }),
       { mcpClients := r.2.1, cachedTools := some r.1 }, r.2.2)

/-- The fixed payload pushed for a failed or cancelled call (src/index.js
line 130): `{ content: { type: "text", text: "..." } }`. -/
def failedCallPayload : JsonValue :=
  .obj [("content",
    .obj [("type", .str "text"),
          ("text", .str "Tool/Function call failed or was cancelled.")])]

/-- The dispatch loop over one model reply (src/index.js lines 113-134): for
each function-call part in order, look the tool up in `this._cachedTools`
(an absent name makes the unguarded `.client` access throw, modelled as
`none`), invoke `callTool` with the next console line, and push a
function-response part. Arguments: registry, per-client provider backends,
console line stream, the parts, and the index of the next console line.
Returns the pushed `functionResponseParts`, the next console line index, the
trace of `callTool` dispatches, and the trace of actual provider invocations.
-/
def dispatchParts (reg : List (String × RegistryEntry))
    (providers : Nat → ProviderBackend) (stdin : Nat → String) :
    List MsgPart → Nat →
    Option (List MsgPart × Nat × List (String × JsonValue) × List (String × JsonValue))
  | [], i => some ([], i, [], [])
  | .functionCall nm args :: rest, i =>
      (match objGet reg nm with
       | none => none
       | some entry =>
           let res := MCPClient.callTool (providers entry.client) (stdin i) nm args
           let respPart :=
             if res.1.success then
               MsgPart.functionResponse nm (res.1.response.getD JsonValue.null)
             else
               MsgPart.functionResponse nm failedCallPayload
           match dispatchParts reg providers stdin rest (i + 1) with
           | none => none
           | some r =>
               some (respPart :: r.1, r.2.1, (nm, args) :: r.2.2.1, res.2 ++ r.2.2.2))
  | .text _ :: rest, i => dispatchParts reg providers stdin rest i
  | .functionResponse _ _ :: rest, i => dispatchParts reg providers stdin rest i

/-- How one `processQuery` invocation ends: normal return of
`[response, currentContents]`, an uncaught exception (the unguarded registry
dereference), or exhaustion of the scripted LLM while the loop still wants
another round. -/
inductive LoopResult where
  | done (response : Turn) (contents : List Turn)
  | fault (contents : List Turn)
  | scriptEnded
deriving Repr

/-- Observable outcome of `processQuery`: the result plus the number of LLM
round-trips, the trace of `callTool` dispatches, and the trace of actual
provider invocations. -/
structure QueryOutcome where
  result : LoopResult
  llmCalls : Nat
  dispatchTrace : List (String × JsonValue)
  providerCalls : List (String × JsonValue)
deriving Repr

/-- The `while (true)` loop of `processQuery` (src/index.js lines 96-139),
driven by a scripted LLM: each list element is the `candidates[0].content` of
one `generateContent` reply. Each round calls `loadTools` (the `config.tools`
argument), appends the reply, returns it if no part carries a function call,
and otherwise dispatches the calls and appends the collected responses as one
user-role turn. -/
def processQueryLoop (providers : Nat → ProviderBackend) (stdin : Nat → String) :
    List Turn → AgentState → List Turn → Nat → QueryOutcome
  | [], _, _, _ =>
      { result := .scriptEnded, llmCalls := 0, dispatchTrace := [], providerCalls := [] }
  | reply :: restScript, agent, contents, i =>
      let agent2 := (MCPAgent.loadTools agent).2.1
      let contents2 := contents ++ [reply]
      if reply.parts.all (fun p => !p.hasFunctionCall) then
        { result := .done reply contents2, llmCalls := 1,
          dispatchTrace := [], providerCalls := [] }
      else
        match dispatchParts (agent2.cachedTools.getD []) providers stdin reply.parts i with
        | none =>
            { result := .fault contents2, llmCalls := 1,
              dispatchTrace := [], providerCalls := [] }
        | some r =>
            let sub := processQueryLoop providers stdin restScript agent2
              (contents2 ++ [{ role := "user", parts := r.1 }]) r.2.1
            { result := sub.result, llmCalls := sub.llmCalls + 1,
              dispatchTrace := r.2.2.1 ++ sub.dispatchTrace,
              providerCalls := r.2.2.2 ++ sub.providerCalls }

/-- `MCPAgent.processQuery` (src/index.js lines 93-142): push the query as a
new turn onto the saved content and run the loop from console line 0. -/
def MCPAgent.processQuery (a : AgentState) (providers : Nat → ProviderBackend)
    (stdin : Nat → String) (llmScript : List Turn)
    (query : String) (role : String) (savedContent : List Turn) : QueryOutcome :=
  processQueryLoop providers stdin llmScript a
    (savedContent ++ [{ role := role, parts := [MsgPart.text query] }]) 0

/-- One connection descriptor from the configuration mapping (src/index.js
lines 167-182): optional `url`, `type`, `command` and `args` properties
(`none` = the property is absent from the JSON object). -/
structure ConnectionDescriptor where
  url : Option String
  type : Option String
  command : Option String
  args : Option (List String)
deriving Repr, DecidableEq

/-- The transport a client is constructed with. -/
inductive Transport where
  | stdio (command : Option String) (args : Option (List String))
  | streamableHttp (url : String)
  | sse (url : String)
deriving Repr, DecidableEq

/-- Result of constructing one client: the transport, or the thrown
`Unknown transport type` configuration error, carrying the offending `type`
value (the source interpolates it into the message). -/
inductive ConfigResult where
  | ok (t : Transport)
  | configError (badType : Option String)
deriving Repr, DecidableEq

/-- The per-descriptor body of `getMCPClients` (src/index.js lines 169-180):
a descriptor without a `url` property is given a stdio transport with whatever
`command`/`args` it has; with a `url`, `type === "http"` and `type === "sse"`
select the two HTTP transports and anything else throws. -/
def getMCPClientTransport (config : ConnectionDescriptor) : ConfigResult :=
  match config.url with
  | none => .ok (.stdio config.command config.args)
  | some u =>
      if config.type = some "http" then .ok (.streamableHttp u)
      else if config.type = some "sse" then .ok (.sse u)
      else .configError config.type

/-- Result of constructing every configured client. -/
inductive ClientsResult where
  | ok (clients : List (String × Transport))
  | configError (badType : Option String)
deriving Repr, DecidableEq

/-- `getMCPClients` (src/index.js lines 167-182): map every configuration
entry to a named client; the first descriptor that throws aborts the whole
construction (the `.map` callback propagates the exception). -/
def getMCPClients : List (String × ConnectionDescriptor) → ClientsResult
  | [] => .ok []
  | (nm, c) :: rest =>
      match getMCPClientTransport c with
      | .configError t => .configError t
      | .ok tr =>
          match getMCPClients rest with
          | .configError t => .configError t
          | .ok l => .ok ((nm, tr) :: l)

/-- The function-call parts of a reply, as (name, args) pairs, in order of
appearance. -/
def callsOf (parts : List MsgPart) : List (String × JsonValue) :=
  parts.filterMap (fun p =>
    match p with
    | .functionCall nm args => some (nm, args)
    | _ => none)

/-- Modelled from the spec (steps 4-5 of the turn loop): the function-response
parts collected for the calls of one reply, one per call, in the order the
calls appear; a confirmed call carries the raw tool response, a cancelled or
failed one the fixed textual payload. -/
def specCollectedResponses (reg : List (String × RegistryEntry))
    (providers : Nat → ProviderBackend) (stdin : Nat → String) :
    List (String × JsonValue) → Nat → List MsgPart
  | [], _ => []
  | (nm, args) :: rest, i =>
      MsgPart.functionResponse nm
        (match objGet reg nm with
         | some entry =>
             if stdin i = "yes" then providers entry.client nm args
             else failedCallPayload
         | none => failedCallPayload) ::
      specCollectedResponses reg providers stdin rest (i + 1)

/-- Helper: `getTool` on a state whose tool cache is filled returns the cache
unchanged and issues no provider query. -/
theorem getTool_cached (c : MCPClientState) (ts : List RawTool)
    (h : c.tools = some ts) : MCPClient.getTool c = (ts, c, 0) := by
  simp [MCPClient.getTool, h]


/-- Helper: `loadTools` on an agent whose registry cache is already filled
returns the declaration groups from the cache, leaves the state unchanged and
issues no provider query. -/
theorem loadTools_cached (a : AgentState) (reg : List (String × RegistryEntry))
    (h : a.cachedTools = some reg) :
    MCPAgent.loadTools a =
      (reg.map (fun p => { functionDeclarations := [p.2.definition] }), a, 0) := by
  simp [MCPAgent.loadTools, h]

/-- C1: for every tool name and args, `callTool` first reads one console line;
any line other than exactly `"yes"` leaves the provider-invocation trace empty
and returns `{success: false, response: null}`, while exactly `"yes"` invokes
the provider exactly once and returns its raw response with `success: true`. -/
theorem callTool_confirmation_gate (mcp : ProviderBackend)
    (line toolName : String) (args : JsonValue) :
    (line ≠ "yes" →
      (MCPClient.callTool mcp line toolName args).2 = [] ∧
      (MCPClient.callTool mcp line toolName args).1 =
        { success := false, response := none })
  ∧ (line = "yes" →
      (MCPClient.callTool mcp line toolName args).2 = [(toolName, args)] ∧
      (MCPClient.callTool mcp line toolName args).1 =
        { success := true, response := some (mcp toolName args) }) := by
  constructor <;> intro h <;> simp [MCPClient.callTool, h]

/-- Witness for C1 at the line `"no"` (cancelled, provider untouched) and the
line `"yes"` (provider invoked once, raw response returned). -/
theorem callTool_confirmation_gate_witness :
    ((MCPClient.callTool (fun _ _ => JsonValue.str "ok") "no" "add" JsonValue.null).2 = [] ∧
     (MCPClient.callTool (fun _ _ => JsonValue.str "ok") "no" "add" JsonValue.null).1 =
       { success := false, response := none })
  ∧ ((MCPClient.callTool (fun _ _ => JsonValue.str "ok") "yes" "add" JsonValue.null).2 =
       [("add", JsonValue.null)] ∧
     (MCPClient.callTool (fun _ _ => JsonValue.str "ok") "yes" "add" JsonValue.null).1 =
       { success := true, response := some (JsonValue.str "ok") }) :=
  ⟨(callTool_confirmation_gate (fun _ _ => JsonValue.str "ok") "no" "add" JsonValue.null).1
      (by decide),
   (callTool_confirmation_gate (fun _ _ => JsonValue.str "ok") "yes" "add" JsonValue.null).2
      rfl⟩

/-- C2: the code does NOT handle an unknown tool name gracefully. With an
empty registry and a model reply calling the tool `mystery`, the unguarded
`this._cachedTools[name].client` access throws, so `processQuery` ends in an
uncaught fault after appending the model turn, instead of pushing a
failed-tool-response part and continuing the loop. -/
theorem processQuery_unknown_tool_uncaught_fault :
    (MCPAgent.processQuery ⟨[], none⟩ (fun _ => fun _ _ => JsonValue.null)
        (fun _ => "yes")
        [{ role := "model", parts := [MsgPart.functionCall "mystery" JsonValue.null] }]
        "use the mystery tool" "user" []).result =
      LoopResult.fault
        [{ role := "user", parts := [MsgPart.text "use the mystery tool"] },
         { role := "model", parts := [MsgPart.functionCall "mystery" JsonValue.null] }] := by
  rfl

/-- C6: when the first scripted model reply has no function-call part,
`processQuery` returns it after exactly one LLM round-trip, with zero tool
dispatches and zero provider invocations, the reply being appended to the
history right after the new user turn. -/
theorem processQuery_pure_text_single_round
    (a : AgentState) (providers : Nat → ProviderBackend) (stdin : Nat → String)
    (reply : Turn) (rest : List Turn) (query role : String) (saved : List Turn)
    (h : reply.parts.all (fun p => !p.hasFunctionCall) = true) :
    MCPAgent.processQuery a providers stdin (reply :: rest) query role saved =
      { result := .done reply
          ((saved ++ [{ role := role, parts := [MsgPart.text query] }]) ++ [reply]),
        llmCalls := 1, dispatchTrace := [], providerCalls := [] } := by
  simp [MCPAgent.processQuery, processQueryLoop, h]

/-- Witness for C6: a one-client agent, a scripted pure-text reply. -/
theorem processQuery_pure_text_single_round_witness :
    MCPAgent.processQuery ⟨[], none⟩ (fun _ => fun _ _ => JsonValue.null)
        (fun _ => "yes") [{ role := "model", parts := [MsgPart.text "fine"] }]
        "how are you" "user" [] =
      { result := .done { role := "model", parts := [MsgPart.text "fine"] }
          (([] ++ [{ role := "user", parts := [MsgPart.text "how are you"] }]) ++
            [{ role := "model", parts := [MsgPart.text "fine"] }]),
        llmCalls := 1, dispatchTrace := [], providerCalls := [] } :=
  processQuery_pure_text_single_round ⟨[], none⟩ (fun _ => fun _ _ => JsonValue.null)
    (fun _ => "yes") { role := "model", parts := [MsgPart.text "fine"] } []
    "how are you" "user" [] (by decide)

/-- Helper: whenever the turn loop ends normally, the returned reply carries
no function-call part and is the last element of the returned contents. -/
theorem processQueryLoop_done_inv (providers : Nat → ProviderBackend)
    (stdin : Nat → String) :
    ∀ (script : List Turn) (a : AgentState) (contents : List Turn) (i : Nat)
      (r : Turn) (c : List Turn),
      (processQueryLoop providers stdin script a contents i).result =
        LoopResult.done r c →
      r.parts.all (fun p => !p.hasFunctionCall) = true ∧ c.getLast? = some r := by
  intro script
  induction script with
  | nil =>
      intro a contents i r c h
      simp [processQueryLoop] at h
  | cons reply rest ih =>
      intro a contents i r c h
      unfold processQueryLoop at h
      by_cases hall : reply.parts.all (fun p => !p.hasFunctionCall) = true
      · simp only [hall, if_true] at h
        simp only [LoopResult.done.injEq] at h
        obtain ⟨hr, hc⟩ := h
        subst hr; subst hc
        exact ⟨hall, List.getLast?_concat _⟩
      · simp only [hall] at h
        simp only [Bool.false_eq_true, if_false] at h
        split at h
        · simp at h
        · exact ih _ _ _ _ _ h

/-- C10: whenever `processQuery` returns normally, the reply it returns has no
part carrying a `functionCall`, and that reply is the last turn of the
returned history. -/
theorem processQuery_final_reply_tool_call_free
    (a : AgentState) (providers : Nat → ProviderBackend) (stdin : Nat → String)
    (llmScript : List Turn) (query role : String) (saved : List Turn)
    (r : Turn) (c : List Turn)
    (h : (MCPAgent.processQuery a providers stdin llmScript query role saved).result =
      LoopResult.done r c) :
    r.parts.all (fun p => !p.hasFunctionCall) = true ∧ c.getLast? = some r :=
  processQueryLoop_done_inv providers stdin llmScript a _ 0 r c h

/-- Witness for C10: a concrete one-reply run that returns normally. -/
theorem processQuery_final_reply_tool_call_free_witness :
    (Turn.mk "model" [MsgPart.text "hello"]).parts.all
        (fun p => !p.hasFunctionCall) = true ∧
      ([Turn.mk "user" [MsgPart.text "hi"],
        Turn.mk "model" [MsgPart.text "hello"]] : List Turn).getLast? =
        some (Turn.mk "model" [MsgPart.text "hello"]) :=
  processQuery_final_reply_tool_call_free ⟨[], none⟩
    (fun _ => fun _ _ => JsonValue.null) (fun _ => "")
    [Turn.mk "model" [MsgPart.text "hello"]] "hi" "user" []
    (Turn.mk "model" [MsgPart.text "hello"])
    ([Turn.mk "user" [MsgPart.text "hi"], Turn.mk "model" [MsgPart.text "hello"]]) rfl

/-- C9 counterexample: the descriptor with no `url`, `type` set to
`"websocket"`, and no `command`/`args` has a transport type that is neither
`"http"` nor `"sse"` and is not a local-process descriptor, yet client
construction does not fail: it silently builds a stdio transport with absent
command and args, deferring any failure to first use. -/
theorem getMCPClientTransport_unknown_type_without_url_not_rejected :
    (ConnectionDescriptor.mk none (some "websocket") none none).type ≠ some "http"
  ∧ (ConnectionDescriptor.mk none (some "websocket") none none).type ≠ some "sse"
  ∧ (ConnectionDescriptor.mk none (some "websocket") none none).command = none
  ∧ (ConnectionDescriptor.mk none (some "websocket") none none).args = none
  ∧ getMCPClientTransport (ConnectionDescriptor.mk none (some "websocket") none none) =
      ConfigResult.ok (Transport.stdio none none) := by
  refine ⟨by decide, by decide, rfl, rfl, rfl⟩

/-- C9 amended: a descriptor that carries a `url` and whose `type` is neither
`"http"` nor `"sse"` makes client construction throw the configuration error
at startup, and any configuration containing such a descriptor makes the whole
`getMCPClients` construction fail; a descriptor without a `url` is always
built as a local-process (stdio) client, whatever its `type`. -/
theorem getMCPClients_unknown_type_with_url_fails_fast
    (d : ConnectionDescriptor) (u : String)
    (hu : d.url = some u) (hh : d.type ≠ some "http") (hs : d.type ≠ some "sse") :
    getMCPClientTransport d = ConfigResult.configError d.type
  ∧ ∀ cfg : List (String × ConnectionDescriptor), ∀ nm : String,
      (nm, d) ∈ cfg → ∃ t, getMCPClients cfg = ClientsResult.configError t := by
  have h1 : getMCPClientTransport d = ConfigResult.configError d.type := by
    simp [getMCPClientTransport, hu, hh, hs]
  refine ⟨h1, ?_⟩
  intro cfg
  induction cfg with
  | nil =>
      intro nm h
      simp at h
  | cons hd rest ih =>
      obtain ⟨nm2, c2⟩ := hd
      intro nm hmem
      rcases List.mem_cons.1 hmem with heq | hmem2
      · obtain ⟨hnm, hc⟩ := Prod.mk.injEq .. ▸ heq
        refine ⟨d.type, ?_⟩
        simp [getMCPClients, ← hc, h1]
      · obtain ⟨t, ht⟩ := ih nm hmem2
        cases hcase : getMCPClientTransport c2 with
        | configError bt => exact ⟨bt, by simp [getMCPClients, hcase]⟩
        | ok tr =>
            refine ⟨t, ?_⟩
            simp [getMCPClients, hcase, ht]

/-- Witness for C9 amended: a `url` descriptor of type `"ws"` is rejected at
construction, and a configuration containing it fails as a whole. -/
theorem getMCPClients_unknown_type_with_url_fails_fast_witness :
    getMCPClientTransport (ConnectionDescriptor.mk (some "http://x") (some "ws") none none) =
      ConfigResult.configError (some "ws")
  ∧ ∃ t, getMCPClients
      [("srv", ConnectionDescriptor.mk (some "http://x") (some "ws") none none)] =
      ClientsResult.configError t :=
  ⟨(getMCPClients_unknown_type_with_url_fails_fast
      (ConnectionDescriptor.mk (some "http://x") (some "ws") none none) "http://x"
      rfl (by decide) (by decide)).1,
   (getMCPClients_unknown_type_with_url_fails_fast
      (ConnectionDescriptor.mk (some "http://x") (some "ws") none none) "http://x"
      rfl (by decide) (by decide)).2
     [("srv", ConnectionDescriptor.mk (some "http://x") (some "ws") none none)]
     "srv" (by simp)⟩

/-- Helper: membership in the stripped parameters object. -/
theorem stripSchemaKeys_mem (s : List (String × JsonValue)) (kv : String × JsonValue) :
    kv ∈ stripSchemaKeys s ↔
      kv ∈ s ∧ kv.1 ≠ "additionalProperties" ∧ kv.1 ≠ "$schema" := by
  simp [stripSchemaKeys, List.mem_filter, not_or]

/-- Helper: a property of all entries of a registry is preserved by one
`objSet` write whose written pair has the property. -/
theorem objSet_forall (P : String × RegistryEntry → Prop)
    (m : List (String × RegistryEntry)) (k : String) (v : RegistryEntry)
    (hm : ∀ p ∈ m, P p) (hv : P (k, v)) : ∀ p ∈ objSet m k v, P p := by
  intro p hp
  unfold objSet at hp
  split at hp
  · obtain ⟨q, hq, hpq⟩ := List.mem_map.1 hp
    by_cases hk : q.1 = k
    · simp only [hk, if_true] at hpq
      exact hpq ▸ hv
    · simp only [hk, if_false] at hpq
      exact hpq ▸ hm q hq
  · rcases List.mem_append.1 hp with h | h
    · exact hm p h
    · simp only [List.mem_singleton] at h
      exact h ▸ hv

/-- Helper: every entry written by the per-client tool fold is a
`makeEntry` pair keyed by the tool name. -/
theorem foldl_objSet_forall (P : String × RegistryEntry → Prop) (idx : Nat)
    (hmk : ∀ t : RawTool, P (t.name, makeEntry idx t)) :
    ∀ (ts : List RawTool) (reg : List (String × RegistryEntry)),
      (∀ p ∈ reg, P p) →
      ∀ p ∈ ts.foldl (fun r t => objSet r t.name (makeEntry idx t)) reg, P p := by
  intro ts
  induction ts with
  | nil => intro reg hreg; simpa using hreg
  | cons t ts ih =>
      intro reg hreg
      rw [List.foldl_cons]
      exact ih _ (objSet_forall P reg t.name (makeEntry idx t) hreg (hmk t))

/-- Helper: every entry of the registry built by the `loadTools` provider loop
comes from `makeEntry`, keyed by the tool name. -/
theorem loadToolsLoop_forall (P : String × RegistryEntry → Prop)
    (hmk : ∀ (j : Nat) (t : RawTool), P (t.name, makeEntry j t)) :
    ∀ (clients : List MCPClientState) (reg : List (String × RegistryEntry)) (idx : Nat),
      (∀ p ∈ reg, P p) →
      ∀ p ∈ (loadToolsLoop clients reg idx).1, P p := by
  intro clients
  induction clients with
  | nil => intro reg idx hreg; simpa [loadToolsLoop] using hreg
  | cons c cs ih =>
      intro reg idx hreg
      simp only [loadToolsLoop]
      exact ih _ (idx + 1)
        (foldl_objSet_forall P idx (hmk idx) (MCPClient.getTool c).1 reg hreg)

/-- C3: the cached definition built by `loadTools` for a provider tool has a
`parameters` object that contains neither `additionalProperties` nor `$schema`,
contains every other key of the tool's `inputSchema` with its value unchanged,
and contains nothing else; moreover every entry of the registry built by
`loadTools` from a fresh cache is of exactly this stripped shape. -/
theorem loadTools_strips_schema_keys (idx : Nat) (tool : RawTool) :
    ((∀ kv ∈ (makeEntry idx tool).definition.parameters,
        kv.1 ≠ "additionalProperties" ∧ kv.1 ≠ "$schema")
  ∧ (∀ kv ∈ tool.inputSchema,
        kv.1 ≠ "additionalProperties" → kv.1 ≠ "$schema" →
        kv ∈ (makeEntry idx tool).definition.parameters)
  ∧ (∀ kv ∈ (makeEntry idx tool).definition.parameters, kv ∈ tool.inputSchema))
  ∧ ∀ (a : AgentState), a.cachedTools = none →
      ∀ reg, (MCPAgent.loadTools a).2.1.cachedTools = some reg →
      ∀ p ∈ reg, ∃ (j : Nat) (t : RawTool),
        p = (t.name, makeEntry j t) ∧
        ∀ kv ∈ p.2.definition.parameters,
          kv.1 ≠ "additionalProperties" ∧ kv.1 ≠ "$schema" := by
  refine ⟨⟨?_, ?_, ?_⟩, ?_⟩
  · intro kv hkv
    exact ((stripSchemaKeys_mem tool.inputSchema kv).1 hkv).2
  · intro kv hkv h1 h2
    exact (stripSchemaKeys_mem tool.inputSchema kv).2 ⟨hkv, h1, h2⟩
  · intro kv hkv
    exact ((stripSchemaKeys_mem tool.inputSchema kv).1 hkv).1
  · intro a ha reg hreg
    have hreg2 : reg = (loadToolsLoop a.mcpClients [] 0).1 := by
      simp [MCPAgent.loadTools, ha] at hreg
      exact hreg.symm
    subst hreg2
    refine loadToolsLoop_forall
      (fun p => ∃ (j : Nat) (t : RawTool),
        p = (t.name, makeEntry j t) ∧
        ∀ kv ∈ p.2.definition.parameters,
          kv.1 ≠ "additionalProperties" ∧ kv.1 ≠ "$schema")
      (fun j t => ⟨j, t, rfl, ?_⟩) a.mcpClients [] 0 (by simp)
    intro kv hkv
    exact ((stripSchemaKeys_mem t.inputSchema kv).1 hkv).2

/-- Witness for C3: a schema with `type`, `additionalProperties` and `$schema`
keys keeps the `type` key with its value unchanged in the cached parameters. -/
theorem loadTools_strips_schema_keys_witness :
    ("type", JsonValue.str "object") ∈
      (makeEntry 0 (RawTool.mk "add" "Adds two numbers"
        [("type", JsonValue.str "object"),
         ("additionalProperties", JsonValue.bool false),
         ("$schema", JsonValue.str "draft-07")])).definition.parameters :=
  (loadTools_strips_schema_keys 0 (RawTool.mk "add" "Adds two numbers"
        [("type", JsonValue.str "object"),
         ("additionalProperties", JsonValue.bool false),
         ("$schema", JsonValue.str "draft-07")])).1.2.1
    ("type", JsonValue.str "object") (by simp) (by decide) (by decide)

/-- Helper: the total number of `listTools` queries issued by the provider
loop is the number of clients whose tool cache is still empty. -/
theorem loadToolsLoop_query_count :
    ∀ (clients : List MCPClientState) (reg : List (String × RegistryEntry)) (idx : Nat),
      (loadToolsLoop clients reg idx).2.2 =
        (clients.filter (fun c => c.tools.isNone)).length := by
  intro clients
  induction clients with
  | nil => intro reg idx; simp [loadToolsLoop]
  | cons c cs ih =>
      intro reg idx
      simp only [loadToolsLoop]
      cases hc : c.tools with
      | some ts => simp [MCPClient.getTool, hc, ih, List.filter_cons]
      | none =>
          simp [MCPClient.getTool, hc, ih, List.filter_cons]
          omega

/-- C4: calling `loadTools` twice in a row issues no provider query at all on
the second call, returns structurally identical declaration lists both times,
leaves the agent state fixed after the first call, and the first call issues
at most one `listTools` query per configured client. -/
theorem loadTools_cache_idempotent (a : AgentState) :
    (MCPAgent.loadTools (MCPAgent.loadTools a).2.1).2.2 = 0
  ∧ (MCPAgent.loadTools (MCPAgent.loadTools a).2.1).1 = (MCPAgent.loadTools a).1
  ∧ (MCPAgent.loadTools (MCPAgent.loadTools a).2.1).2.1 = (MCPAgent.loadTools a).2.1
  ∧ (MCPAgent.loadTools a).2.2 ≤ a.mcpClients.length := by
  cases ha : a.cachedTools with
  | some reg => simp [MCPAgent.loadTools, ha]
  | none =>
      refine ⟨?_, ?_, ?_, ?_⟩
      · simp [MCPAgent.loadTools, ha]
      · simp [MCPAgent.loadTools, ha]
      · simp [MCPAgent.loadTools, ha]
      · simp only [MCPAgent.loadTools, ha]
        rw [loadToolsLoop_query_count]
        exact List.length_filter_le _ _

/-- Helper: property read on a cons cell. -/
theorem objGet_cons (x : String × RegistryEntry) (l : List (String × RegistryEntry))
    (k : String) :
    objGet (x :: l) k = if x.1 = k then some x.2 else objGet l k := by
  by_cases h : x.1 = k <;> simp [objGet, List.find?_cons, h]


/-- Helper: reading through the in-place overwrite map of `objSet`. -/
theorem objGet_overwrite (k k2 : String) (v : RegistryEntry) :
    ∀ m : List (String × RegistryEntry),
      objGet (m.map (fun p => if p.1 = k then (k, v) else p)) k2 =
        if k2 = k then (if m.any (fun p => p.1 = k) then some v else none)
        else objGet m k2 := by
  intro m
  induction m with
  | nil => by_cases h : k2 = k <;> simp [objGet, h]
  | cons q m ih =>
      rw [List.map_cons]
      by_cases hq : q.1 = k
      · by_cases h : k2 = k
        · subst h
          simp [hq, objGet_cons, List.any_cons]
        · have hk : (k = k2) = False := eq_false (fun hk => h hk.symm)
          have hqk2 : (q.1 = k2) = False := eq_false (fun hk => h (hk.symm.trans hq))
          simp [hq, objGet_cons, List.any_cons, ih, h, hk, hqk2]
      · by_cases hq2 : q.1 = k2
        · have hk2k : (k2 = k) = False := eq_false (fun hk => hq (hq2.trans hk))
          simp [hq, objGet_cons, hq2, hk2k]
        · have hdq : decide (q.1 = k) = false := decide_eq_false hq
          rw [if_neg hq, objGet_cons, if_neg hq2, ih, List.any_cons, hdq,
            Bool.false_or, objGet_cons, if_neg hq2]

/-- Helper: reading after the append branch of `objSet` (key not present). -/
theorem objGet_append_new (k k2 : String) (v : RegistryEntry) :
    ∀ m : List (String × RegistryEntry),
      m.any (fun p => p.1 = k) = false →
      objGet (m ++ [(k, v)]) k2 = if k2 = k then some v else objGet m k2 := by
  intro m
  induction m with
  | nil =>
      intro _
      by_cases h : k2 = k
      · simp [objGet, h]
      · have hk : (k = k2) = False := eq_false (fun hk => h hk.symm)
        simp [objGet, h, hk]
  | cons q m ih =>
      intro hany
      rw [List.any_cons] at hany
      have hq : ¬q.1 = k := by
        intro hqk
        simp [hqk] at hany
      have hany2 : m.any (fun p => p.1 = k) = false := by
        by_cases h2 : m.any (fun p => p.1 = k) <;> simp [h2] at hany ⊢
      rw [List.cons_append, objGet_cons, ih hany2, objGet_cons]
      by_cases hq2 : q.1 = k2
      · rw [if_pos hq2,
          if_neg (fun hk : k2 = k => (hq (hq2.trans hk) : False)), if_pos hq2]
      · rw [if_neg hq2, if_neg hq2]

/-- Helper: a property write then a read: reading the written key sees the new
value, any other key is untouched. -/
theorem objGet_objSet (m : List (String × RegistryEntry)) (k k2 : String)
    (v : RegistryEntry) :
    objGet (objSet m k v) k2 = if k2 = k then some v else objGet m k2 := by
  unfold objSet
  by_cases hany : m.any (fun p => p.1 = k)
  · rw [if_pos hany, objGet_overwrite, hany]
    simp
  · rw [if_neg hany, objGet_append_new k k2 v m (Bool.eq_false_iff.mpr hany)]

/-- Helper: reading a key out of the per-client tool fold is a last-write-wins
fold over the tool list. -/
theorem objGet_foldl_objSet (idx : Nat) (nm : String) :
    ∀ (ts : List RawTool) (reg : List (String × RegistryEntry)),
      objGet (ts.foldl (fun r t => objSet r t.name (makeEntry idx t)) reg) nm =
        ts.foldl (fun acc t => if t.name = nm then some (makeEntry idx t) else acc)
          (objGet reg nm) := by
  intro ts
  induction ts with
  | nil => intro reg; simp
  | cons t ts ih =>
      intro reg
      rw [List.foldl_cons, List.foldl_cons, ih, objGet_objSet]
      by_cases h : t.name = nm
      · rw [if_pos h, if_pos h.symm]
      · rw [if_neg h, if_neg (fun hk : nm = t.name => h hk.symm)]

/-- Helper: a last-write-wins fold over a list whose matches are exactly
`[t0]` yields the write for `t0`, whatever the initial accumulator. -/
theorem foldl_pick_single {α β : Type} (p : α → Prop) [DecidablePred p]
    (g : α → β) :
    ∀ (ts : List α) (t0 : α) (acc : Option β),
      ts.filter (fun t => decide (p t)) = [t0] →
      ts.foldl (fun acc t => if p t then some (g t) else acc) acc = some (g t0) := by
  intro ts
  have hnil : ∀ (us : List α) (acc2 : Option β),
      us.filter (fun t => decide (p t)) = [] →
      us.foldl (fun acc t => if p t then some (g t) else acc) acc2 = acc2 := by
    intro us
    induction us with
    | nil => intro acc2 _; rfl
    | cons u us ih2 =>
        intro acc2 hf
        rw [List.filter_cons] at hf
        by_cases h : p u
        · simp [h] at hf
        · rw [List.foldl_cons, if_neg h]
          exact ih2 acc2 (by simpa [h] using hf)
  induction ts with
  | nil => intro t0 acc h; simp at h
  | cons t ts ih =>
      intro t0 acc hf
      rw [List.filter_cons] at hf
      by_cases h : p t
      · rw [List.foldl_cons, if_pos h]
        simp only [decide_eq_true_eq] at hf
        rw [if_pos h, List.cons.injEq] at hf
        rw [hnil ts (some (g t)) hf.2, hf.1]
      · rw [List.foldl_cons, if_neg h]
        exact ih t0 acc (by simpa [h] using hf)

/-- C8: when two configured providers each expose exactly one tool with the
same name, the registry built by `loadTools` maps that name to the entry of
the provider registered last: its definition comes from the second provider's
tool and its owning client index is 1; the earlier entry is silently
overwritten and the build returns a registry rather than raising an error. -/
theorem loadTools_name_collision_last_wins
    (c1 c2 : MCPClientState) (nm : String) (t1 t2 : RawTool)
    (h1 : (MCPClient.getTool c1).1.filter (fun t => t.name = nm) = [t1])
    (h2 : (MCPClient.getTool c2).1.filter (fun t => t.name = nm) = [t2]) :
    ∃ reg, (MCPAgent.loadTools (AgentState.mk [c1, c2] none)).2.1.cachedTools = some reg
      ∧ objGet reg nm = some (makeEntry 1 t2)
      ∧ (makeEntry 1 t2).client = 1 := by
  refine ⟨(loadToolsLoop [c1, c2] [] 0).1, by simp [MCPAgent.loadTools], ?_, rfl⟩
  have hreg : (loadToolsLoop [c1, c2] [] 0).1 =
      (MCPClient.getTool c2).1.foldl
        (fun r t => objSet r t.name (makeEntry 1 t))
        ((MCPClient.getTool c1).1.foldl
          (fun r t => objSet r t.name (makeEntry 0 t)) []) := by
    simp [loadToolsLoop]
  rw [hreg, objGet_foldl_objSet]
  exact foldl_pick_single (fun t => t.name = nm) (makeEntry 1)
    (MCPClient.getTool c2).1 t2 _ h2

/-- Witness for C8: two stdio providers both exposing a tool named `add`; the
registry maps `add` to the second provider's definition and client index 1. -/
theorem loadTools_name_collision_last_wins_witness :
    ∃ reg, (MCPAgent.loadTools (AgentState.mk
        [MCPClientState.mk "s1" none false [RawTool.mk "add" "first add" []],
         MCPClientState.mk "s2" none false [RawTool.mk "add" "second add" []]]
        none)).2.1.cachedTools = some reg
      ∧ objGet reg "add" = some (makeEntry 1 (RawTool.mk "add" "second add" []))
      ∧ (makeEntry 1 (RawTool.mk "add" "second add" [])).client = 1 :=
  loadTools_name_collision_last_wins
    (MCPClientState.mk "s1" none false [RawTool.mk "add" "first add" []])
    (MCPClientState.mk "s2" none false [RawTool.mk "add" "second add" []])
    "add" (RawTool.mk "add" "first add" []) (RawTool.mk "add" "second add" [])
    rfl rfl

/-- C5: with a scripted LLM that first replies with one function-call part and
then, after the call result, with a pure-text reply, `processQuery` performs
exactly two LLM round-trips and exactly one tool dispatch, and the returned
history is, in order: the saved turns, the user turn, the model turn with the
call, a user-role turn with one function-response part whose name matches the
call, and the final model text turn. -/
theorem processQuery_call_then_text
    (clients : List MCPClientState) (reg : List (String × RegistryEntry))
    (providers : Nat → ProviderBackend) (stdin : Nat → String)
    (nm : String) (args : JsonValue) (entry : RegistryEntry)
    (final : Turn) (query role : String) (saved : List Turn)
    (hreg : objGet reg nm = some entry)
    (hfinal : final.parts.all (fun p => !p.hasFunctionCall) = true) :
    ∃ r : JsonValue,
      MCPAgent.processQuery (AgentState.mk clients (some reg)) providers stdin
        [Turn.mk "model" [MsgPart.functionCall nm args], final] query role saved =
      { result := LoopResult.done final
          (saved ++ [Turn.mk role [MsgPart.text query],
            Turn.mk "model" [MsgPart.functionCall nm args],
            Turn.mk "user" [MsgPart.functionResponse nm r], final]),
        llmCalls := 2,
        dispatchTrace := [(nm, args)],
        providerCalls := if stdin 0 = "yes" then [(nm, args)] else [] } := by
  refine ⟨if stdin 0 = "yes" then providers entry.client nm args
          else failedCallPayload, ?_⟩
  have hf2 := hfinal
  simp only [MsgPart.hasFunctionCall] at hf2
  by_cases hy : stdin 0 = "yes" <;>
    simp [MCPAgent.processQuery, processQueryLoop, dispatchParts,
      MCPAgent.loadTools, MCPClient.callTool, MsgPart.hasFunctionCall,
      hreg, hf2, hy, -List.all_eq_true]

/-- Witness for C5: the `add` scenario with confirmation `"yes"`. -/
theorem processQuery_call_then_text_witness :
    ∃ r : JsonValue,
      MCPAgent.processQuery
        (AgentState.mk []
          (some [("add", RegistryEntry.mk (ToolDefinition.mk "add" "adds" []) 0)]))
        (fun _ => fun _ _ => JsonValue.num 4) (fun _ => "yes")
        [Turn.mk "model" [MsgPart.functionCall "add"
            (JsonValue.obj [("a", JsonValue.num 2), ("b", JsonValue.num 2)])],
         Turn.mk "model" [MsgPart.text "4"]]
        "what is 2 plus 2" "user" [] =
      { result := LoopResult.done (Turn.mk "model" [MsgPart.text "4"])
          ([] ++ [Turn.mk "user" [MsgPart.text "what is 2 plus 2"],
            Turn.mk "model" [MsgPart.functionCall "add"
              (JsonValue.obj [("a", JsonValue.num 2), ("b", JsonValue.num 2)])],
            Turn.mk "user" [MsgPart.functionResponse "add" r],
            Turn.mk "model" [MsgPart.text "4"]]),
        llmCalls := 2,
        dispatchTrace := [("add",
          JsonValue.obj [("a", JsonValue.num 2), ("b", JsonValue.num 2)])],
        providerCalls := if (fun _ : Nat => "yes") 0 = "yes" then
          [("add", JsonValue.obj [("a", JsonValue.num 2), ("b", JsonValue.num 2)])]
          else [] } :=
  processQuery_call_then_text []
    [("add", RegistryEntry.mk (ToolDefinition.mk "add" "adds" []) 0)]
    (fun _ => fun _ _ => JsonValue.num 4) (fun _ => "yes") "add"
    (JsonValue.obj [("a", JsonValue.num 2), ("b", JsonValue.num 2)])
    (RegistryEntry.mk (ToolDefinition.mk "add" "adds" []) 0)
    (Turn.mk "model" [MsgPart.text "4"]) "what is 2 plus 2" "user" [] rfl rfl

/-- Helper: under the assumption that every requested tool name resolves in
the registry, the dispatch loop succeeds and produces exactly the
spec-described response parts, consumes one console line per call, and
dispatches the calls in order of appearance. -/
theorem dispatchParts_spec (reg : List (String × RegistryEntry))
    (providers : Nat → ProviderBackend) (stdin : Nat → String) :
    ∀ (parts : List MsgPart) (i : Nat),
      (callsOf parts).all (fun c => (objGet reg c.1).isSome) = true →
      ∃ pcs, dispatchParts reg providers stdin parts i =
        some (specCollectedResponses reg providers stdin (callsOf parts) i,
              i + (callsOf parts).length, callsOf parts, pcs) := by
  intro parts
  induction parts with
  | nil => intro i _; exact ⟨[], rfl⟩
  | cons p rest ih =>
      intro i h
      cases p with
      | text s =>
          have h2 : (callsOf rest).all (fun c => (objGet reg c.1).isSome) = true := by
            simpa [callsOf] using h
          obtain ⟨pcs, hrec⟩ := ih i h2
          exact ⟨pcs, by simpa [dispatchParts, callsOf] using hrec⟩
      | functionResponse nm r =>
          have h2 : (callsOf rest).all (fun c => (objGet reg c.1).isSome) = true := by
            simpa [callsOf] using h
          obtain ⟨pcs, hrec⟩ := ih i h2
          exact ⟨pcs, by simpa [dispatchParts, callsOf] using hrec⟩
      | functionCall nm args =>
          rw [show callsOf (MsgPart.functionCall nm args :: rest) =
              (nm, args) :: callsOf rest from rfl, List.all_cons] at h
          have hhead : (objGet reg nm).isSome = true := by
            by_cases hh : (objGet reg nm).isSome <;> simp [hh] at h ⊢
          have hrest : (callsOf rest).all (fun c => (objGet reg c.1).isSome) = true := by
            by_cases hh : (callsOf rest).all (fun c => (objGet reg c.1).isSome) <;>
              simp [hh] at h ⊢
          obtain ⟨entry, hentry⟩ := Option.isSome_iff_exists.1 hhead
          obtain ⟨pcs, hrec⟩ := ih (i + 1) hrest
          refine ⟨(MCPClient.callTool (providers entry.client) (stdin i) nm args).2
            ++ pcs, ?_⟩
          rw [show callsOf (MsgPart.functionCall nm args :: rest) =
            (nm, args) :: callsOf rest from rfl]
          simp only [dispatchParts, hentry, hrec]
          by_cases hy : stdin i = "yes"
          · simp only [specCollectedResponses, hentry, MCPClient.callTool, hy]
            simp [Option.some.injEq]
            omega
          · simp only [specCollectedResponses, hentry, MCPClient.callTool, hy]
            simp [Option.some.injEq, hy]
            omega

/-- C7: when a model reply carries function-call parts and every requested
name resolves, the loop dispatches the calls strictly in the order the parts
appear in the reply (the dispatch trace starts with exactly that call list),
collects all the resulting function-response parts — raw responses for
confirmed calls, the fixed textual payload for cancelled or failed ones —
into one single new turn with role `user` appended to the history right after
the reply, and continues the loop from that extended history. -/
theorem processQuery_dispatch_order_single_user_turn
    (clients : List MCPClientState) (reg : List (String × RegistryEntry))
    (providers : Nat → ProviderBackend) (stdin : Nat → String)
    (reply : Turn) (restScript : List Turn) (contents : List Turn) (i : Nat)
    (hresolve : (callsOf reply.parts).all (fun c => (objGet reg c.1).isSome) = true)
    (hcall : reply.parts.any (fun p => p.hasFunctionCall) = true) :
    (processQueryLoop providers stdin (reply :: restScript)
        (AgentState.mk clients (some reg)) contents i).result =
      (processQueryLoop providers stdin restScript (AgentState.mk clients (some reg))
        (contents ++ [reply, Turn.mk "user"
          (specCollectedResponses reg providers stdin (callsOf reply.parts) i)])
        (i + (callsOf reply.parts).length)).result
  ∧ (processQueryLoop providers stdin (reply :: restScript)
        (AgentState.mk clients (some reg)) contents i).dispatchTrace =
      callsOf reply.parts ++
      (processQueryLoop providers stdin restScript (AgentState.mk clients (some reg))
        (contents ++ [reply, Turn.mk "user"
          (specCollectedResponses reg providers stdin (callsOf reply.parts) i)])
        (i + (callsOf reply.parts).length)).dispatchTrace := by
  have hall : reply.parts.all (fun p => !p.hasFunctionCall) = false := by
    cases hb : reply.parts.all (fun p => !p.hasFunctionCall) with
    | false => rfl
    | true =>
        rcases List.any_eq_true.1 hcall with ⟨p, hp, hfc⟩
        have h2 := List.all_eq_true.1 hb p hp
        simp [hfc] at h2
  obtain ⟨pcs, hdp⟩ := dispatchParts_spec reg providers stdin reply.parts i hresolve
  constructor <;>
    simp [processQueryLoop, MCPAgent.loadTools, hall, hdp, List.append_assoc,
      -List.all_eq_true]

/-- Witness for C7: one reply with a text part and one `add` call. -/
theorem processQuery_dispatch_order_single_user_turn_witness :
    (processQueryLoop (fun _ => fun _ _ => JsonValue.num 4) (fun _ => "yes")
        [Turn.mk "model" [MsgPart.text "calling", MsgPart.functionCall "add" JsonValue.null]]
        (AgentState.mk []
          (some [("add", RegistryEntry.mk (ToolDefinition.mk "add" "adds" []) 0)]))
        [] 0).result =
      (processQueryLoop (fun _ => fun _ _ => JsonValue.num 4) (fun _ => "yes") []
        (AgentState.mk []
          (some [("add", RegistryEntry.mk (ToolDefinition.mk "add" "adds" []) 0)]))
        ([] ++ [Turn.mk "model"
            [MsgPart.text "calling", MsgPart.functionCall "add" JsonValue.null],
          Turn.mk "user"
            (specCollectedResponses
              [("add", RegistryEntry.mk (ToolDefinition.mk "add" "adds" []) 0)]
              (fun _ => fun _ _ => JsonValue.num 4) (fun _ => "yes")
              (callsOf [MsgPart.text "calling", MsgPart.functionCall "add" JsonValue.null])
              0)])
        (0 + (callsOf [MsgPart.text "calling",
          MsgPart.functionCall "add" JsonValue.null]).length)).result
  ∧ (processQueryLoop (fun _ => fun _ _ => JsonValue.num 4) (fun _ => "yes")
        [Turn.mk "model" [MsgPart.text "calling", MsgPart.functionCall "add" JsonValue.null]]
        (AgentState.mk []
          (some [("add", RegistryEntry.mk (ToolDefinition.mk "add" "adds" []) 0)]))
        [] 0).dispatchTrace =
      callsOf [MsgPart.text "calling", MsgPart.functionCall "add" JsonValue.null] ++
      (processQueryLoop (fun _ => fun _ _ => JsonValue.num 4) (fun _ => "yes") []
        (AgentState.mk []
          (some [("add", RegistryEntry.mk (ToolDefinition.mk "add" "adds" []) 0)]))
        ([] ++ [Turn.mk "model"
            [MsgPart.text "calling", MsgPart.functionCall "add" JsonValue.null],
          Turn.mk "user"
            (specCollectedResponses
              [("add", RegistryEntry.mk (ToolDefinition.mk "add" "adds" []) 0)]
              (fun _ => fun _ _ => JsonValue.num 4) (fun _ => "yes")
              (callsOf [MsgPart.text "calling", MsgPart.functionCall "add" JsonValue.null])
              0)])
        (0 + (callsOf [MsgPart.text "calling",
          MsgPart.functionCall "add" JsonValue.null]).length)).dispatchTrace :=
  processQuery_dispatch_order_single_user_turn []
    [("add", RegistryEntry.mk (ToolDefinition.mk "add" "adds" []) 0)]
    (fun _ => fun _ _ => JsonValue.num 4) (fun _ => "yes")
    (Turn.mk "model" [MsgPart.text "calling", MsgPart.functionCall "add" JsonValue.null])
    [] [] 0 rfl rfl
